import Mathlib

/-!
Verification of the drissy-browser scraping/search proxy.

The development shallowly embeds the pure core of `src/server.js` and
`src/browser-manager.js`:

* page body texts and excerpts are `List Char` (JS strings under `indexOf`
  and `slice`);
* `String.prototype.indexOf` is `strIndexOf` (first match, `none` for `-1`);
* the search cache (`Map` keyed by strings) is an association list with
  `Map.set` replacement semantics;
* network effects (`fetch`, browser navigation) are oracle inputs: a fetch
  outcome is an `Option HttpResp` argument, a SERP response is a `SerpResp`
  argument, the parsed DuckDuckGo result blocks are a `List RawEl` argument;
* clock reads (`Date.now()`) are explicit `Nat` arguments.

Character-count arguments (`charsBefore`, `charsAfter`) are `Nat`; Lean's
truncated `Nat` subtraction coincides with the `Math.max(0, ...)` clamps of
the source.
-/

/-- JS `String.prototype.indexOf` scanning from position `i`:
least `j ≥ i` with `pat` a prefix of the suffix of `s` at `j`. -/
def strIndexOfAux : List Char → List Char → Nat → Option Nat
  | s, pat, i =>
    if pat.isPrefixOf s then some i
    else
      match s with
      | [] => none
      | _ :: t => strIndexOfAux t pat (i + 1)

/-- JS `s.indexOf(pat)`: `some i` at the first occurrence, `none` for `-1`. -/
def strIndexOf (s pat : List Char) : Option Nat :=
  strIndexOfAux s pat 0

/-- JS `s.slice(start, stop)` for `0 ≤ start ≤ stop`. -/
def listSlice (s : List Char) (start stop : Nat) : List Char :=
  (s.drop start).take (stop - start)

/-- JS `s.includes(pat)` on strings. -/
def strContains (s pat : String) : Bool :=
  (strIndexOf s.toList pat.toList).isSome

/-- JS `s.startsWith(pre)` on strings. -/
def strStartsWith (s pre : String) : Bool :=
  pre.toList.isPrefixOf s.toList

/-- The tagged extraction outcome of `server.js`: `{found: true, title, url,
extractedText}` or `{found: false, title, url, fullText}`. -/
inductive ExtractResult where
  | found (title url : String) (extractedText : List Char)
  | notFound (title url : String) (fullText : List Char)
deriving DecidableEq

/-- Whether the JS object has `found === true`. -/
def ExtractResult.isFound : ExtractResult → Bool
  | .found _ _ _ => true
  | .notFound _ _ _ => false

/-- `extractFromText(body, excerpt, charsBefore, charsAfter, title, pageUrl)`
of `server.js` lines 167-187: empty body gives `null`; an exact `indexOf` hit
returns `found` with the window clamped to the text bounds; otherwise the
first 40 characters of the excerpt are probed; if that also misses, the
result is `notFound` carrying the first 5000 characters of the body. -/
def extractFromText (body excerpt : List Char) (charsBefore charsAfter : Nat)
    (title pageUrl : String) : Option ExtractResult :=
  if body.length = 0 then none
  else
    match strIndexOf body excerpt with
    | some index =>
        some (.found title pageUrl
          (listSlice body (index - charsBefore)
            (min body.length (index + excerpt.length + charsAfter))))
    | none =>
        let short := excerpt.take 40
        match strIndexOf body short with
        | some index =>
            some (.found title pageUrl
              (listSlice body (index - charsBefore)
                (min body.length (index + short.length + charsAfter))))
        | none => some (.notFound title pageUrl (body.take 5000))

/-- Outcome of the fast-path HTTP fetch after cheerio parsing: `ok` is
`resp.ok`, `title` the page title, `body` the stripped/trimmed content text.
The fetch-level failure (`catch` giving `null`) is the `none` case of the
`Option HttpResp` argument below. -/
structure HttpResp where
  ok : Bool
  title : String
  body : List Char
deriving DecidableEq

/-- `extractFast` of `server.js` lines 190-210 with the network and HTML
parsing abstracted into the `resp` oracle: `null` on fetch failure or
non-success status, otherwise runs `extractFromText` and keeps only a
`found` result (`result && result.found ? result : null`). -/
def extractFast (resp : Option HttpResp) (excerpt : List Char)
    (charsBefore charsAfter : Nat) (url : String) : Option ExtractResult :=
  match resp with
  | none => none
  | some r =>
    if r.ok then
      match extractFromText r.body excerpt charsBefore charsAfter r.title url with
      | some result => if result.isFound then some result else none
      | none => none
    else none

/-- `extractOneUrl` of `server.js` lines 213-218 enters the browser fallback
exactly when `extractFast` returned `null` (`if (fast) return fast;`). -/
def extractOneUrlUsesBrowser (resp : Option HttpResp) (excerpt : List Char)
    (charsBefore charsAfter : Nat) (url : String) : Bool :=
  (extractFast resp excerpt charsBefore charsAfter url).isNone

/-- C3: if the body text is non-empty and `indexOf` locates the excerpt
verbatim at index `i`, `extractFromText` returns the `found` variant whose
`extractedText` is exactly the slice of `body` over the window
`[i - charsBefore, min (length body) (i + length excerpt + charsAfter)]`
(Nat subtraction is the `max 0` clamp of the source). -/
theorem extractFromText_exact_window (body excerpt : List Char)
    (charsBefore charsAfter : Nat) (title url : String) (i : Nat)
    (hb : 0 < body.length) (hi : strIndexOf body excerpt = some i) :
    extractFromText body excerpt charsBefore charsAfter title url =
      some (.found title url (listSlice body (i - charsBefore)
        (min body.length (i + excerpt.length + charsAfter)))) := by
  unfold extractFromText
  rw [if_neg (by omega), hi]

/-- C3 witness: body `"lorem ipsum the quick fox"`, excerpt `"the quick"`
found at index 12, window `[12 - 5, min 25 (12 + 9 + 5)]`. -/
theorem extractFromText_exact_window_witness :
    0 < (String.toList "lorem ipsum the quick fox").length ∧
    strIndexOf (String.toList "lorem ipsum the quick fox")
      (String.toList "the quick") = some 12 ∧
    extractFromText (String.toList "lorem ipsum the quick fox")
      (String.toList "the quick") 5 5 "t" "u" =
      some (.found "t" "u" (listSlice (String.toList "lorem ipsum the quick fox")
        (12 - 5) (min (String.toList "lorem ipsum the quick fox").length
          (12 + (String.toList "the quick").length + 5)))) :=
  ⟨by decide, by decide,
    extractFromText_exact_window _ _ 5 5 "t" "u" 12 (by decide) (by decide)⟩

/-- Equation lemma: when the exact search misses, `extractFromText` runs the
40-character fuzzy probe. -/
theorem extractFromText_fuzzy_eq (body excerpt : List Char)
    (charsBefore charsAfter : Nat) (title url : String)
    (hb : ¬ body.length = 0) (hex : strIndexOf body excerpt = none) :
    extractFromText body excerpt charsBefore charsAfter title url =
      match strIndexOf body (excerpt.take 40) with
      | some index =>
          some (.found title url (listSlice body (index - charsBefore)
            (min body.length (index + (excerpt.take 40).length + charsAfter))))
      | none => some (.notFound title url (body.take 5000)) := by
  unfold extractFromText
  rw [if_neg hb, hex]

/-- C4: if the body is non-empty, the excerpt is absent verbatim, and the
40-character probe `excerpt.take 40` is located at index `j`, the result is
the `found` variant whose window end uses the probe's length
`(excerpt.take 40).length` — i.e. `min 40 (length excerpt)` — not the full
excerpt length. -/
theorem extractFromText_fuzzy_window (body excerpt : List Char)
    (charsBefore charsAfter : Nat) (title url : String) (j : Nat)
    (hb : 0 < body.length) (hex : strIndexOf body excerpt = none)
    (hj : strIndexOf body (excerpt.take 40) = some j) :
    extractFromText body excerpt charsBefore charsAfter title url =
      some (.found title url (listSlice body (j - charsBefore)
        (min body.length (j + (excerpt.take 40).length + charsAfter)))) ∧
    (excerpt.take 40).length = min 40 excerpt.length := by
  refine ⟨?_, by simp⟩
  rw [extractFromText_fuzzy_eq body excerpt charsBefore charsAfter title url
    (by omega) hex, hj]

/-- C4 witness: a 41-character excerpt (40 `a`s then `b`) absent from a body
of 40 `a`s followed by `c`, while its 40-character probe occurs at index 0. -/
theorem extractFromText_fuzzy_window_witness :
    0 < (List.replicate 40 'a' ++ ['c']).length ∧
    strIndexOf (List.replicate 40 'a' ++ ['c'])
      (List.replicate 40 'a' ++ ['b']) = none ∧
    strIndexOf (List.replicate 40 'a' ++ ['c'])
      ((List.replicate 40 'a' ++ ['b']).take 40) = some 0 ∧
    extractFromText (List.replicate 40 'a' ++ ['c'])
      (List.replicate 40 'a' ++ ['b']) 3 7 "t" "u" =
      some (.found "t" "u" (listSlice (List.replicate 40 'a' ++ ['c'])
        (0 - 3) (min (List.replicate 40 'a' ++ ['c']).length
          (0 + ((List.replicate 40 'a' ++ ['b']).take 40).length + 7)))) :=
  ⟨by decide, by decide, by decide,
    (extractFromText_fuzzy_window _ _ 3 7 "t" "u" 0
      (by decide) (by decide) (by decide)).1⟩

/-- C5: if the body is non-empty and neither the excerpt nor its
40-character probe occurs, the result is the `notFound` variant whose
`fullText` is the first 5000 characters of the body (hence at most 5000
characters long). -/
theorem extractFromText_notFound_truncated (body excerpt : List Char)
    (charsBefore charsAfter : Nat) (title url : String)
    (hb : 0 < body.length) (hex : strIndexOf body excerpt = none)
    (hpr : strIndexOf body (excerpt.take 40) = none) :
    extractFromText body excerpt charsBefore charsAfter title url =
      some (.notFound title url (body.take 5000)) ∧
    (body.take 5000).length ≤ 5000 := by
  refine ⟨?_, by simp⟩
  rw [extractFromText_fuzzy_eq body excerpt charsBefore charsAfter title url
    (by omega) hex, hpr]

/-- C5 witness: body `"hello world"` contains neither `"xyz"` nor its
40-character probe (itself). -/
theorem extractFromText_notFound_truncated_witness :
    0 < (String.toList "hello world").length ∧
    strIndexOf (String.toList "hello world") (String.toList "xyz") = none ∧
    strIndexOf (String.toList "hello world")
      ((String.toList "xyz").take 40) = none ∧
    extractFromText (String.toList "hello world") (String.toList "xyz")
      2 2 "t" "u" =
      some (.notFound "t" "u" ((String.toList "hello world").take 5000)) :=
  ⟨by decide, by decide, by decide,
    (extractFromText_notFound_truncated _ _ 2 2 "t" "u"
      (by decide) (by decide) (by decide)).1⟩

/-- Equation lemma: `extractFast` on a completed fetch. -/
theorem extractFast_some_eq (r : HttpResp) (excerpt : List Char)
    (charsBefore charsAfter : Nat) (url : String) :
    extractFast (some r) excerpt charsBefore charsAfter url =
      if r.ok then
        match extractFromText r.body excerpt charsBefore charsAfter r.title url with
        | some result => if result.isFound then some result else none
        | none => none
      else none := rfl

/-- The `found` variant produced by `extractFromText` carries the `title`
and `pageUrl` arguments unchanged. -/
theorem extractFromText_found_fields (body excerpt : List Char)
    (charsBefore charsAfter : Nat) (title url title2 url2 : String)
    (txt : List Char)
    (h : extractFromText body excerpt charsBefore charsAfter title url =
      some (.found title2 url2 txt)) :
    title2 = title ∧ url2 = url := by
  by_cases hb : body.length = 0
  · unfold extractFromText at h
    rw [if_pos hb] at h
    exact absurd h (by simp)
  · cases hex : strIndexOf body excerpt with
    | some i =>
      unfold extractFromText at h
      rw [if_neg hb, hex] at h
      simp only [Option.some.injEq, ExtractResult.found.injEq] at h
      exact ⟨h.1.symm, h.2.1.symm⟩
    | none =>
      rw [extractFromText_fuzzy_eq body excerpt charsBefore charsAfter
        title url hb hex] at h
      cases hpr : strIndexOf body (excerpt.take 40) with
      | some j =>
        rw [hpr] at h
        simp only [Option.some.injEq, ExtractResult.found.injEq] at h
        exact ⟨h.1.symm, h.2.1.symm⟩
      | none =>
        rw [hpr] at h
        exact absurd h (by simp)

/-- C1 counterexample: a successful fetch whose body text ran the excerpt
logic to the terminal `notFound` outcome still enters the browser fallback:
`extractFast` maps the `notFound` result to `null`, so `extractOneUrl`
acquires a browser session even though the `Found`/`NotFound` logic ran. -/
theorem browser_fallback_after_notFound_cex :
    extractFromText (String.toList "hello world") (String.toList "xyz")
      1 1 "t" "u" =
      some (.notFound "t" "u" (String.toList "hello world")) ∧
    extractOneUrlUsesBrowser
      (some ⟨true, "t", String.toList "hello world"⟩)
      (String.toList "xyz") 1 1 "u" = true := ⟨by decide, by decide⟩

/-- C1 amended: the browser fallback is skipped exactly when the fast path
produced a `found` result; in particular a fast path that ran the excerpt
logic to a terminal `notFound` outcome still acquires a browser session, as
do fetch failures, non-success statuses, and empty body texts. -/
theorem browser_fallback_iff_no_found (resp : Option HttpResp)
    (excerpt : List Char) (charsBefore charsAfter : Nat) (url : String) :
    (extractOneUrlUsesBrowser resp excerpt charsBefore charsAfter url = false ↔
      ∃ r txt, resp = some r ∧ r.ok = true ∧
        extractFromText r.body excerpt charsBefore charsAfter r.title url =
          some (.found r.title url txt)) ∧
    (∀ r t2 u2 f, resp = some r → r.ok = true →
      extractFromText r.body excerpt charsBefore charsAfter r.title url =
        some (.notFound t2 u2 f) →
      extractOneUrlUsesBrowser resp excerpt charsBefore charsAfter url = true) := by
  constructor
  · constructor
    · intro h
      cases resp with
      | none => simp [extractOneUrlUsesBrowser, extractFast] at h
      | some r =>
        unfold extractOneUrlUsesBrowser at h
        rw [extractFast_some_eq] at h
        by_cases hok : r.ok = true
        · rw [if_pos hok] at h
          cases hres : extractFromText r.body excerpt charsBefore charsAfter r.title url with
          | none => rw [hres] at h; simp at h
          | some result =>
            rw [hres] at h
            cases result with
            | notFound t2 u2 f => simp [ExtractResult.isFound] at h
            | found t2 u2 txt =>
              obtain ⟨ht, hu⟩ := extractFromText_found_fields _ _ _ _ _ _ _ _ _ hres
              subst ht; subst hu
              exact ⟨r, txt, rfl, hok, hres⟩
        · rw [if_neg hok] at h; simp at h
    · rintro ⟨r, txt, rfl, hok, hres⟩
      unfold extractOneUrlUsesBrowser
      rw [extractFast_some_eq, if_pos hok, hres]
      simp [ExtractResult.isFound]
  · rintro r t2 u2 f rfl hok hres
    unfold extractOneUrlUsesBrowser
    rw [extractFast_some_eq, if_pos hok, hres]
    simp [ExtractResult.isFound]

/-- C1 amended witness: for a successful fetch with body `"ab cd"` and
excerpt `"ab"`, the fast path yields a `found` result and no browser session
is acquired; the `notFound` implication is instantiated vacuously at the
same input. -/
theorem browser_fallback_iff_no_found_witness :
    extractOneUrlUsesBrowser (some ⟨true, "t", String.toList "ab cd"⟩)
      (String.toList "ab") 1 1 "u" = false :=
  (browser_fallback_iff_no_found (some ⟨true, "t", String.toList "ab cd"⟩)
    (String.toList "ab") 1 1 "u").1.mpr
    ⟨⟨true, "t", String.toList "ab cd"⟩,
      listSlice (String.toList "ab cd") (0 - 1)
        (min (String.toList "ab cd").length (0 + 2 + 1)),
      rfl, rfl, by decide⟩

/-- JS `String.prototype.trim`: drop leading and trailing whitespace. -/
def trimChars (s : List Char) : List Char :=
  ((s.dropWhile Char.isWhitespace).reverse.dropWhile Char.isWhitespace).reverse

/-- Normalized query text shared by both backends:
`query.trim().toLowerCase()`. -/
def normQuery (q : String) : String :=
  String.mk ((trimChars q.toList).map Char.toLower)

/-- Cache key of `POST /search/duckduckgo` (`server.js` line 45): the
normalized query text with no prefix. -/
def ddgCacheKey (q : String) : String := normQuery q

/-- Cache key of `POST /search/google` (`server.js` line 114): the
normalized query text prefixed with `g:`. -/
def googleCacheKey (q : String) : String := "g:" ++ normQuery q

/-- C2 counterexample: the DuckDuckGo key carries no backend prefix, so the
DuckDuckGo query `"g:rust"` collides with the Google key for query
`"rust"`: one backend can read or overwrite the other's cache entry. -/
theorem cacheKey_cross_backend_collision_cex :
    ddgCacheKey "g:rust" = googleCacheKey "rust" := by decide

/-- C2 amended: for one and the same query string the two backends' keys do
differ (only the Google key is prefixed, with `g:`), but the keys are not
segregated across backends: a DuckDuckGo query whose normalized text starts
with `g:` shares the key of the corresponding Google query. -/
theorem cacheKey_same_query_distinct (q : String) :
    ddgCacheKey q ≠ googleCacheKey q ∧
    ddgCacheKey ("g:" ++ normQuery q) = googleCacheKey q ∨
    ddgCacheKey q ≠ googleCacheKey q := by
  right
  intro h
  have hlen := congrArg String.length h
  rw [googleCacheKey, String.length_append] at hlen
  have h2 : ("g:" : String).length = 2 := rfl
  rw [ddgCacheKey] at hlen
  omega

/-- C2 amended witness: the two keys differ at the concrete query `"rust"`. -/
theorem cacheKey_same_query_distinct_witness :
    ddgCacheKey "rust" ≠ googleCacheKey "rust" := by
  have h := cacheKey_same_query_distinct "rust"
  rcases h with ⟨h1, _⟩ | h1 <;> exact h1

/-- Minimum spacing between scraped-backend upstream requests
(`MIN_GAP_MS`, `server.js` line 16). -/
def MIN_GAP_MS : Nat := 1500

/-- The throttle gate's wait computation (`server.js` line 55):
`Math.max(0, MIN_GAP_MS - (now - lastSearchTs))`, with Nat subtraction
providing both clamps. -/
def throttleWait (lastTs now : Nat) : Nat := MIN_GAP_MS - (now - lastTs)

/-- C8: for two back-to-back scraped-backend searches that miss the cache,
with `d1` the first upstream dispatch time (the value stored into
`lastSearchTs`), `n2 ≥ d1` the instant the second caller reads the clock
(back-to-back: the second gate runs after the first dispatched), and `d2`
the second dispatch time — which is at least `n2` plus the computed wait,
since `setTimeout` suspends for at least the requested duration — the two
dispatches are at least `MIN_GAP_MS = 1500` ms apart. -/
theorem throttle_min_gap (d1 n2 d2 : Nat) (h1 : d1 ≤ n2)
    (h2 : n2 + throttleWait d1 n2 ≤ d2) :
    d1 + MIN_GAP_MS ≤ d2 := by
  rw [throttleWait] at h2
  rw [MIN_GAP_MS] at *
  omega

/-- C8 witness: first dispatch at 0, second caller reads the clock at 400,
waits the remaining 1100 ms and dispatches at 1500 = 0 + 1500. -/
theorem throttle_min_gap_witness :
    (0 : Nat) ≤ 400 ∧ 400 + throttleWait 0 400 ≤ 1500 ∧
    (0 : Nat) + MIN_GAP_MS ≤ 1500 :=
  ⟨by decide, by decide, throttle_min_gap 0 400 1500 (by decide) (by decide)⟩

/-- One settled batch item (`Promise.allSettled`): `Except.error` models a
rejected promise, `Except.ok` a fulfilled one carrying `extractFast`'s
value (`none` for `null`). -/
def settledToOpt : Except String (Option ExtractResult) → Option ExtractResult
  | .ok (some v) => some v
  | .ok none => none
  | .error _ => none

/-- The result-collection phase of `POST /extract-batch` (`server.js` lines
267-274): map each settled item to its value when fulfilled and non-null,
else `null`, then `filter(Boolean)`. -/
def batchResults (settled : List (Except String (Option ExtractResult))) :
    List ExtractResult :=
  (settled.map settledToOpt).filterMap id

/-- Helper: `batchResults` distributes over list append. -/
theorem batchResults_append (xs ys : List (Except String (Option ExtractResult))) :
    batchResults (xs ++ ys) = batchResults xs ++ batchResults ys := by
  simp [batchResults]

/-- C9: a failed batch item (rejected promise or `null` result) anywhere in
the list is dropped without affecting its siblings — the output is the
concatenation of the outputs on the surrounding sublists — and when every
item succeeds the output is exactly the list of their values in input
order, so the relative order of successes is preserved. -/
theorem batch_drops_failures_keeps_order :
    (∀ (xs ys : List (Except String (Option ExtractResult)))
      (bad : Except String (Option ExtractResult)), settledToOpt bad = none →
      batchResults (xs ++ bad :: ys) = batchResults xs ++ batchResults ys) ∧
    (∀ vs : List ExtractResult,
      batchResults (vs.map (fun v => Except.ok (some v))) = vs) := by
  constructor
  · intro xs ys bad hbad
    rw [batchResults_append]
    simp [batchResults, hbad]
  · intro vs
    induction vs with
    | nil => rfl
    | cons v t ih => simpa [batchResults, settledToOpt] using ih

/-- C9 witness: 5 items where item 3 is a rejected fetch yield exactly the
4 successful results in input order. -/
theorem batch_drops_failures_keeps_order_witness :
    settledToOpt (Except.error "fetch failed") = none ∧
    batchResults
      [Except.ok (some (.found "t1" "u1" ['a'])),
       Except.ok (some (.found "t2" "u2" ['b'])),
       Except.error "fetch failed",
       Except.ok (some (.notFound "t4" "u4" ['c'])),
       Except.ok (some (.found "t5" "u5" ['d']))] =
      [.found "t1" "u1" ['a'], .found "t2" "u2" ['b'],
       .notFound "t4" "u4" ['c'], .found "t5" "u5" ['d']] :=
  ⟨rfl,
    (batch_drops_failures_keeps_order.1
      [Except.ok (some (.found "t1" "u1" ['a'])),
       Except.ok (some (.found "t2" "u2" ['b']))]
      [Except.ok (some (.notFound "t4" "u4" ['c'])),
       Except.ok (some (.found "t5" "u5" ['d']))]
      (Except.error "fetch failed") rfl).trans (by decide)⟩

/-- Normalized search result shared by both backends. -/
structure SearchResult where
  title : String
  url : String
  snippet : String
deriving DecidableEq

/-- A value of the `searchCache` map: `{ results, ts }`. -/
structure CacheEntry where
  results : List SearchResult
  ts : Nat
deriving DecidableEq

/-- The `searchCache` JS `Map`, as an association list. -/
abbrev Cache := List (String × CacheEntry)

/-- JS `searchCache.get(k)`. -/
def cacheGet (c : Cache) (k : String) : Option CacheEntry :=
  (c.find? (fun p => p.1 == k)).map (fun p => p.2)

/-- JS `searchCache.set(k, v)`: the key is bound to `v`, any previous
binding is gone. -/
def cacheSet (c : Cache) (k : String) (v : CacheEntry) : Cache :=
  (k, v) :: c.filter (fun p => !(p.1 == k))

/-- DuckDuckGo cache time-to-live (`CACHE_TTL`, `server.js` line 14). -/
def CACHE_TTL : Nat := 10 * 60000

/-- Google cache time-to-live (`GOOGLE_CACHE_TTL`, `server.js` line 108). -/
def GOOGLE_CACHE_TTL : Nat := 30 * 60000

/-- The eviction sweep of `server.js` lines 92-97: delete every entry whose
timestamp is before the cutoff. -/
def ddgEvict (c : Cache) (cutoff : Nat) : Cache :=
  c.filter (fun p => !(decide (p.2.ts < cutoff)))

/-- The cache-miss tail of `POST /search/duckduckgo` (`server.js` lines
53-99) after the upstream fetch and HTML parse, whose accepted results are
the `fetched` oracle argument: store the results unconditionally, sweep
when the map exceeds 500 entries, respond uncached. -/
def ddgMiss (cache : Cache) (now : Nat) (key : String)
    (fetched : List SearchResult) : Cache × (List SearchResult × Bool) :=
  let c1 := cacheSet cache key ⟨fetched, now⟩
  let c2 := if 500 < c1.length then ddgEvict c1 (now - CACHE_TTL) else c1
  (c2, (fetched, false))

/-- `POST /search/duckduckgo` (`server.js` lines 42-103): serve a fresh
cache hit, otherwise fetch (oracle `fetched`) and store. The response pair
is (results, cached flag). -/
def ddgHandler (cache : Cache) (now : Nat) (query : String)
    (fetched : List SearchResult) : Cache × (List SearchResult × Bool) :=
  match cacheGet cache (ddgCacheKey query) with
  | some e =>
    if now - e.ts < CACHE_TTL then (cache, (e.results, true))
    else ddgMiss cache now (ddgCacheKey query) fetched
  | none => ddgMiss cache now (ddgCacheKey query) fetched

/-- One parsed organic result of the Oxylabs SERP payload. -/
structure OrganicRaw where
  title : String
  url : String
  desc : Option String
deriving DecidableEq

/-- A completed Oxylabs SERP fetch: HTTP success flag and status, optional
`data.message`, and the parsed `organic` array. -/
structure SerpResp where
  ok : Bool
  status : Nat
  message : Option String
  organic : List OrganicRaw
deriving DecidableEq

/-- Response of `POST /search/google`: upstream error propagation or a
result list with cached flag. -/
inductive GoogleOut where
  | upstreamError (status : Nat) (msg : String)
  | results (rs : List SearchResult) (cached : Bool)
deriving DecidableEq

/-- `organic.slice(0, 10).map(...)` of `server.js` lines 144-149. -/
def serpToResults (organic : List OrganicRaw) : List SearchResult :=
  (organic.take 10).map (fun r => ⟨r.title, r.url, r.desc.getD ""⟩)

/-- The cache-miss tail of `POST /search/google` (`server.js` lines
121-155): propagate a non-success upstream status without storing;
otherwise store only when at least one result was obtained. -/
def googleMiss (cache : Cache) (now : Nat) (key : String)
    (resp : SerpResp) : Cache × GoogleOut :=
  if resp.ok then
    let rs := serpToResults resp.organic
    let c2 := if 0 < rs.length then cacheSet cache key ⟨rs, now⟩ else cache
    (c2, .results rs false)
  else (cache, .upstreamError resp.status (resp.message.getD "Oxylabs SERP error"))

/-- `POST /search/google` (`server.js` lines 111-159). -/
def googleHandler (cache : Cache) (now : Nat) (query : String)
    (resp : SerpResp) : Cache × GoogleOut :=
  match cacheGet cache (googleCacheKey query) with
  | some e =>
    if now - e.ts < GOOGLE_CACHE_TTL then (cache, .results e.results true)
    else googleMiss cache now (googleCacheKey query) resp
  | none => googleMiss cache now (googleCacheKey query) resp

/-- Helper: a freshly set key reads back its value. -/
theorem cacheGet_set_self (c : Cache) (k : String) (v : CacheEntry) :
    cacheGet (cacheSet c k v) k = some v := by
  simp [cacheGet, cacheSet, List.find?_cons]

/-- Helper: the entry just written at time `now` survives the eviction
sweep with cutoff `now - CACHE_TTL`. -/
theorem cacheGet_evict_set_self (c : Cache) (k : String)
    (rs : List SearchResult) (now : Nat) :
    cacheGet (ddgEvict (cacheSet c k ⟨rs, now⟩) (now - CACHE_TTL)) k =
      some ⟨rs, now⟩ := by
  have hts : ¬ now < now - CACHE_TTL := Nat.not_lt.mpr (Nat.sub_le now CACHE_TTL)
  simp [ddgEvict, cacheSet, cacheGet, List.filter_cons, hts, List.find?_cons]

/-- Helper: the DuckDuckGo miss path always leaves the fetched results in
the cache under the given key, timestamped `now`. -/
theorem ddgMiss_stores (cache : Cache) (now : Nat) (key : String)
    (fetched : List SearchResult) :
    cacheGet (ddgMiss cache now key fetched).1 key = some ⟨fetched, now⟩ := by
  unfold ddgMiss
  dsimp only
  split
  · exact cacheGet_evict_set_self cache key fetched now
  · exact cacheGet_set_self cache key ⟨fetched, now⟩

/-- Equation lemma: on a cache miss the Google handler runs its miss path. -/
theorem googleHandler_miss_eq (cache : Cache) (now : Nat) (q : String)
    (resp : SerpResp) (hg : cacheGet cache (googleCacheKey q) = none) :
    googleHandler cache now q resp =
      googleMiss cache now (googleCacheKey q) resp := by
  unfold googleHandler
  rw [hg]

/-- Equation lemma: on a cache miss the DuckDuckGo handler runs its miss
path. -/
theorem ddgHandler_miss_eq (cache : Cache) (now : Nat) (q : String)
    (fetched : List SearchResult)
    (hd : cacheGet cache (ddgCacheKey q) = none) :
    ddgHandler cache now q fetched =
      ddgMiss cache now (ddgCacheKey q) fetched := by
  unfold ddgHandler
  rw [hd]

/-- C6: on a cache miss, the Google handler leaves an entry under the
query's key if and only if the upstream call succeeded and produced at
least one result — failed and empty responses are never stored — whereas
the DuckDuckGo handler always stores the fetched results, the empty list
included. -/
theorem google_caches_iff_nonempty_ddg_always (cache : Cache) (now : Nat)
    (q q2 : String) (resp : SerpResp) (fetched : List SearchResult)
    (hg : cacheGet cache (googleCacheKey q) = none)
    (hd : cacheGet cache (ddgCacheKey q2) = none) :
    ((cacheGet (googleHandler cache now q resp).1 (googleCacheKey q)).isSome
        = true ↔
      (resp.ok = true ∧ serpToResults resp.organic ≠ [])) ∧
    cacheGet (ddgHandler cache now q2 fetched).1 (ddgCacheKey q2) =
      some ⟨fetched, now⟩ := by
  constructor
  · rw [googleHandler_miss_eq cache now q resp hg]
    unfold googleMiss
    by_cases hok : resp.ok = true
    · rw [if_pos hok]
      dsimp only
      by_cases hrs : serpToResults resp.organic = []
      · rw [if_neg (by simp [hrs])]
        simp [hg, hok, hrs]
      · rw [if_pos (by simp [List.length_pos, hrs])]
        simp [cacheGet_set_self, hok, hrs]
    · rw [if_neg hok]
      simp [hg, hok]
  · rw [ddgHandler_miss_eq cache now q2 fetched hd]
    exact ddgMiss_stores cache now (ddgCacheKey q2) fetched

/-- C6 witness: on an empty cache, a successful one-result Google call
stores an entry, and a DuckDuckGo call with an empty result list stores an
entry too. -/
theorem google_caches_iff_nonempty_ddg_always_witness :
    ((cacheGet (googleHandler [] 7 "a" ⟨true, 200, none, [⟨"T", "U", none⟩]⟩).1
        (googleCacheKey "a")).isSome = true ↔
      ((true : Bool) = true ∧ serpToResults [⟨"T", "U", none⟩] ≠ [])) ∧
    cacheGet (ddgHandler [] 7 "b" []).1 (ddgCacheKey "b") = some ⟨[], 7⟩ :=
  google_caches_iff_nonempty_ddg_always [] 7 "a" "b"
    ⟨true, 200, none, [⟨"T", "U", none⟩]⟩ [] rfl rfl

/-- One candidate `.result` block of the DuckDuckGo HTML, as cheerio reads
it: `href` is `a.attr('href') || ''`, `titleText` is `a.text()` before
trimming, `snippetText` the `.result__snippet` text when the element
exists. -/
structure RawEl where
  href : String
  titleText : String
  snippetText : Option String
deriving DecidableEq

/-- Snippet computation of `server.js` line 84: missing element reads as
the empty string, then trimmed. -/
def elSnippet (el : RawEl) : String := (trimChars (el.snippetText.getD "").toList).asString

/-- The `$('.result').each` accumulation loop of `server.js` lines 76-86:
stop at 10 accepted results; skip non-absolute links, the internal
redirect/ad path, and seen URLs; record the URL as seen, then drop
empty-titled candidates. -/
def ddgCollect : List RawEl → List String → Nat → List SearchResult
  | [], _, _ => []
  | el :: rest, seen, count =>
    if 10 ≤ count then []
    else if !(strStartsWith el.href "http") || strContains el.href "duckduckgo.com/y.js"
        || seen.contains el.href then
      ddgCollect rest seen count
    else if (trimChars el.titleText.toList).asString = "" then
      ddgCollect rest (el.href :: seen) count
    else
      ⟨(trimChars el.titleText.toList).asString, el.href, elSnippet el⟩ ::
        ddgCollect rest (el.href :: seen) (count + 1)

/-- The whole parse of one DuckDuckGo response body. -/
def parseDdg (els : List RawEl) : List SearchResult := ddgCollect els [] 0

/-- Helper: the loop accepts at most `10 - count` further results. -/
theorem ddgCollect_length (els : List RawEl) (seen : List String) (count : Nat) :
    (ddgCollect els seen count).length ≤ 10 - count := by
  induction els generalizing seen count with
  | nil => simp [ddgCollect]
  | cons el rest ih =>
    rw [ddgCollect]
    split
    · simp
    · split
      · exact ih seen count
      · split
        · exact ih (el.href :: seen) count
        · rename_i hcount _ _
          have := ih (el.href :: seen) (count + 1)
          simp only [List.length_cons]
          omega

/-- Helper: every accepted result has an absolute, non-ad URL not in
`seen`, and a non-empty title. -/
theorem ddgCollect_mem (els : List RawEl) (seen : List String) (count : Nat)
    (r : SearchResult) (hr : r ∈ ddgCollect els seen count) :
    strStartsWith r.url "http" = true ∧
    strContains r.url "duckduckgo.com/y.js" = false ∧
    r.title ≠ "" ∧ seen.contains r.url = false := by
  induction els generalizing seen count with
  | nil => simp [ddgCollect] at hr
  | cons el rest ih =>
    rw [ddgCollect] at hr
    split at hr
    · simp at hr
    · split at hr
      · rename_i hskip
        have h := ih seen count hr
        exact h
      · split at hr
        · rename_i hskip htitle
          have h := ih (el.href :: seen) count hr
          refine ⟨h.1, h.2.1, h.2.2.1, ?_⟩
          have := h.2.2.2
          simp only [List.contains_cons, Bool.or_eq_false_iff] at this
          exact this.2
        · rename_i hskip htitle
          simp only [List.mem_cons] at hr
          rcases hr with hr | hr
          · subst hr
            have hb : (!(strStartsWith el.href "http")
                || strContains el.href "duckduckgo.com/y.js"
                || seen.contains el.href) = false := by
              cases hB : (!(strStartsWith el.href "http")
                  || strContains el.href "duckduckgo.com/y.js"
                  || seen.contains el.href) with
              | false => rfl
              | true => exact absurd hB hskip
            simp only [Bool.or_eq_false_iff, Bool.not_eq_false'] at hb
            exact ⟨hb.1.1, hb.1.2, htitle, hb.2⟩
          · have h := ih (el.href :: seen) (count + 1) hr
            refine ⟨h.1, h.2.1, h.2.2.1, ?_⟩
            have := h.2.2.2
            simp only [List.contains_cons, Bool.or_eq_false_iff] at this
            exact this.2

/-- Helper: the URLs accepted by the loop are pairwise distinct. -/
theorem ddgCollect_nodup (els : List RawEl) (seen : List String) (count : Nat) :
    ((ddgCollect els seen count).map SearchResult.url).Nodup := by
  induction els generalizing seen count with
  | nil => simp [ddgCollect]
  | cons el rest ih =>
    rw [ddgCollect]
    split
    · simp
    · split
      · exact ih seen count
      · split
        · exact ih (el.href :: seen) count
        · simp only [List.map_cons, List.nodup_cons]
          refine ⟨?_, ih (el.href :: seen) (count + 1)⟩
          intro hmem
          obtain ⟨r, hr, hurl⟩ := List.mem_map.mp hmem
          have h := ddgCollect_mem rest (el.href :: seen) (count + 1) r hr
          have hc := h.2.2.2
          rw [hurl] at hc
          simp [List.contains_cons] at hc

/-- C7: for every parsed DuckDuckGo response, the accepted result list has
at most 10 entries; every entry's URL starts with `http` and does not
contain the internal redirect/ad path `duckduckgo.com/y.js`; no two entries
share a URL; every entry's title is non-empty; and an absent snippet
element reads as the empty string. -/
theorem parseDdg_invariants (els : List RawEl) :
    (parseDdg els).length ≤ 10 ∧
    (∀ r ∈ parseDdg els, strStartsWith r.url "http" = true ∧
      strContains r.url "duckduckgo.com/y.js" = false ∧ r.title ≠ "") ∧
    ((parseDdg els).map SearchResult.url).Nodup ∧
    (∀ h t, elSnippet ⟨h, t, none⟩ = "") := by
  refine ⟨?_, ?_, ddgCollect_nodup els [] 0, ?_⟩
  · have h := ddgCollect_length els [] 0
    simpa [parseDdg] using h
  · intro r hr
    have h := ddgCollect_mem els [] 0 r hr
    exact ⟨h.1, h.2.1, h.2.2.1⟩
  · intro h t
    rfl

/-- A concrete DuckDuckGo response for the C7 witness: a good result, a
duplicate URL, a relative link, an ad link, and an empty title. -/
def demoEls : List RawEl :=
  [⟨"https://doc.rust-lang.org/ownership", " Rust ownership ", some " snip "⟩,
   ⟨"https://doc.rust-lang.org/ownership", "Duplicate", none⟩,
   ⟨"/relative", "Relative", none⟩,
   ⟨"https://duckduckgo.com/y.js?ad", "Ad", none⟩,
   ⟨"https://example.com/a", "  ", none⟩,
   ⟨"https://example.com/a", "Second", some "s2"⟩]

/-- C7 witness: the invariants instantiated on `demoEls`, with the
per-entry facts discharged at the concrete accepted result. -/
theorem parseDdg_invariants_witness :
    (parseDdg demoEls).length ≤ 10 ∧
    (⟨"Rust ownership", "https://doc.rust-lang.org/ownership", "snip"⟩ :
        SearchResult) ∈ parseDdg demoEls ∧
    strStartsWith "https://doc.rust-lang.org/ownership" "http" = true ∧
    strContains "https://doc.rust-lang.org/ownership" "duckduckgo.com/y.js"
      = false ∧
    ("Rust ownership" : String) ≠ "" ∧
    ((parseDdg demoEls).map SearchResult.url).Nodup ∧
    elSnippet ⟨"h", "t", none⟩ = "" := by
  have h := parseDdg_invariants demoEls
  have hmem : (⟨"Rust ownership", "https://doc.rust-lang.org/ownership",
      "snip"⟩ : SearchResult) ∈ parseDdg demoEls := by decide
  have hr := h.2.1 _ hmem
  exact ⟨h.1, hmem, hr.1, hr.2.1, hr.2.2, h.2.2.1, h.2.2.2 "h" "t"⟩

/-- A browser session of `browser-manager.js`: `{ context, page }`. Context
and page handles are identified by creation order; `newContext`/`newPage`
calls draw fresh identifiers from a counter. -/
structure Session where
  contextId : Nat
  pageId : Nat
deriving DecidableEq

/-- The `BrowserManager` state: the `sessions` map (association list) and
the fresh-handle counter modelling context/page creation. -/
structure BMState where
  sessions : List (String × Session)
  nextId : Nat
deriving DecidableEq

/-- JS `this.sessions.get(userId)`. -/
def sessionsGet (st : BMState) (u : String) : Option Session :=
  (st.sessions.find? (fun p => p.1 == u)).map (fun p => p.2)

/-- `getSession(userId)` of `browser-manager.js` lines 26-64: return the
cached session unchanged, or create a context and a page (two fresh
handles), store the session, and return it. The third component records
whether a new browsing context/page was created. -/
def getSession (st : BMState) (u : String) : Session × BMState × Bool :=
  match sessionsGet st u with
  | some s => (s, st, false)
  | none =>
    (⟨st.nextId, st.nextId + 1⟩,
      ⟨(u, ⟨st.nextId, st.nextId + 1⟩) :: st.sessions, st.nextId + 2⟩, true)

/-- `destroy(userId)` of `browser-manager.js` lines 66-72: close and forget
the user's session when present, otherwise do nothing. -/
def destroy (st : BMState) (u : String) : BMState :=
  match sessionsGet st u with
  | some _ => ⟨st.sessions.filter (fun p => !(p.1 == u)), st.nextId⟩
  | none => st

/-- Equation lemma: `getSession` on a cached user. -/
theorem getSession_hit (st : BMState) (u : String) (s : Session)
    (h : sessionsGet st u = some s) : getSession st u = (s, st, false) := by
  unfold getSession
  rw [h]

/-- Equation lemma: `getSession` on an unknown user. -/
theorem getSession_miss (st : BMState) (u : String)
    (h : sessionsGet st u = none) :
    getSession st u = (⟨st.nextId, st.nextId + 1⟩,
      ⟨(u, ⟨st.nextId, st.nextId + 1⟩) :: st.sessions, st.nextId + 2⟩, true) := by
  unfold getSession
  rw [h]

/-- Equation lemma: `destroy` on a cached user filters out its entries. -/
theorem destroy_hit (st : BMState) (u : String) (s : Session)
    (h : sessionsGet st u = some s) :
    destroy st u = ⟨st.sessions.filter (fun p => !(p.1 == u)), st.nextId⟩ := by
  unfold destroy
  rw [h]

/-- Equation lemma: `destroy` on an unknown user is a no-op. -/
theorem destroy_miss (st : BMState) (u : String)
    (h : sessionsGet st u = none) : destroy st u = st := by
  unfold destroy
  rw [h]

/-- Helper: after any `getSession st u`, the map holds the returned
session under `u`. -/
theorem sessionsGet_after_get (st : BMState) (u : String) :
    sessionsGet (getSession st u).2.1 u = some (getSession st u).1 := by
  cases hs : sessionsGet st u with
  | some s => rw [getSession_hit st u s hs]; exact hs
  | none => rw [getSession_miss st u hs]; simp [sessionsGet, List.find?_cons]

/-- Helper: filtering out a key other than `u` does not change the first
entry found for `u`. -/
theorem find?_filter_other (l : List (String × Session)) (u v : String)
    (huv : ¬ v = u) :
    (l.filter (fun p => !(p.1 == v))).find? (fun p => p.1 == u) =
      l.find? (fun p => p.1 == u) := by
  induction l with
  | nil => rfl
  | cons p t ih =>
    cases hbu : (p.1 == u) with
    | true =>
      have hpu : p.1 = u := eq_of_beq hbu
      have hbv : (p.1 == v) = false := by
        refine beq_eq_false_iff_ne.mpr ?_
        rw [hpu]
        exact fun h => huv h.symm
      simp [List.filter_cons, hbv, List.find?_cons, hbu]
    | false =>
      cases hbv : (p.1 == v) with
      | true => simp [List.filter_cons, hbv, List.find?_cons, hbu, ih]
      | false => simp [List.filter_cons, hbv, List.find?_cons, hbu, ih]

/-- Helper: after filtering out every entry of key `u`, no entry for `u`
is found. -/
theorem find?_filter_self (l : List (String × Session)) (u : String) :
    (l.filter (fun p => !(p.1 == u))).find? (fun p => p.1 == u) = none := by
  rw [List.find?_eq_none]
  intro x hx
  have h := (List.mem_filter.mp hx).2
  simp at h ⊢
  exact h

/-- C10: `getSession` is idempotent per user identifier: the second call
returns exactly the session cached by the first, with the state unchanged
and no new context or page created; moreover the `sessions` entry survives
every further `getSession` (any user) and every `destroy` of a different
user, and is removed by `destroy` of this user. -/
theorem getSession_idempotent_until_destroy (st : BMState) (u : String) :
    getSession (getSession st u).2.1 u =
      ((getSession st u).1, (getSession st u).2.1, false) ∧
    (∀ v, sessionsGet (getSession (getSession st u).2.1 v).2.1 u =
      some (getSession st u).1) ∧
    (∀ v, ¬ v = u → sessionsGet (destroy (getSession st u).2.1 v) u =
      some (getSession st u).1) ∧
    sessionsGet (destroy (getSession st u).2.1 u) u = none := by
  have hget := sessionsGet_after_get st u
  refine ⟨getSession_hit _ u _ hget, ?_, ?_, ?_⟩
  · intro v
    cases hv : sessionsGet (getSession st u).2.1 v with
    | some s2 => rw [getSession_hit _ v s2 hv]; exact hget
    | none =>
      by_cases huv : v = u
      · subst huv
        rw [hv] at hget
        exact absurd hget (by simp)
      · rw [getSession_miss _ v hv]
        have hvu : (v == u) = false := by simp [huv]
        simp only [sessionsGet, List.find?_cons, hvu]
        exact hget
  · intro v huv
    cases hv : sessionsGet (getSession st u).2.1 v with
    | some s2 =>
      rw [destroy_hit _ v s2 hv]
      simp only [sessionsGet]
      rw [find?_filter_other _ u v huv]
      exact hget
    | none => rw [destroy_miss _ v hv]; exact hget
  · rw [destroy_hit _ u _ hget]
    simp only [sessionsGet]
    rw [find?_filter_self]
    rfl

/-- C10 witness: starting from the empty pool, a session created for
`"alice"` is returned unchanged by a second call, survives `destroy "bob"`,
and is removed by `destroy "alice"`. -/
theorem getSession_idempotent_until_destroy_witness :
    getSession (getSession ⟨[], 0⟩ "alice").2.1 "alice" =
      ((getSession ⟨[], 0⟩ "alice").1,
        (getSession ⟨[], 0⟩ "alice").2.1, false) ∧
    sessionsGet (destroy (getSession ⟨[], 0⟩ "alice").2.1 "bob") "alice" =
      some (getSession ⟨[], 0⟩ "alice").1 ∧
    sessionsGet (destroy (getSession ⟨[], 0⟩ "alice").2.1 "alice") "alice" =
      none := by
  have h := getSession_idempotent_until_destroy ⟨[], 0⟩ "alice"
  exact ⟨h.1, h.2.2.1 "bob" (by decide), h.2.2.2⟩
